import Mathlib

/-!
Verification of the athome scraper core (extraction, ranking, storage,
orchestration) against its natural-language specification.  The Python
sources are shallowly embedded: dictionaries become structures with
optional fields, SQLite rows become a list of row records, machine
floats become rationals, and each regular expression used by the code
is modelled by a dedicated leftmost-match scanner with the same
semantics on the character classes involved.
-/

namespace AthomeScraper

/-- Scan for `needle` as a contiguous run of `hay`, leftmost first. -/
def infixScan (needle : List Char) : List Char → Bool
  | [] => needle.isPrefixOf []
  | c :: cs => needle.isPrefixOf (c :: cs) || infixScan needle cs

/-- Substring containment, modelling Python's `needle in hay`. -/
def strContains (hay needle : String) : Bool :=
  infixScan needle.data hay.data

/-! Ranking engine (src/ranking.py), with the shipped default configuration
(config/athome_scraper_config.py). -/

/-- The property fields read by `PropertyRanker.calculate_rank`; a `none`
models a key absent from the Python dict (`dict.get` then supplies the
documented default). -/
structure PropertyData where
  price_numeric : Option ℚ
  land_area_tsubo : Option ℚ
  address : String
  walk_minutes : Option ℤ
  building_coverage : Option ℚ
  floor_area_ratio : Option ℚ
  usage_area : String

/-- The `PREMIUM_AREAS` list from the configuration file. -/
def premiumAreas : List String :=
  ["中央町", "府内町", "都町", "金池町", "末広町",
   "千代町", "大手町", "荷揚町", "長浜町", "錦町",
   "城崎町", "東大道", "西大道", "大道町", "萩原"]

/-- The `INVESTMENT_CRITERIA["建ぺい率"]` table sorted by key descending, as produced by
`sorted(dict.items(), reverse=True)` in `_evaluate_investment`. -/
def coverageCriteria : List (ℚ × ℚ) := [(80, 100), (70, 80), (60, 60), (50, 40)]

/-- The `INVESTMENT_CRITERIA["容積率"]` table sorted by key descending. -/
def ratioCriteria : List (ℚ × ℚ) := [(400, 100), (300, 80), (200, 60), (150, 40)]

/-- The `for threshold, score in sorted(...) / if value >= threshold: break`
loop of `_evaluate_investment`, with its default of 50. -/
def lookupCriteria : List (ℚ × ℚ) → ℚ → ℚ
  | [], _ => 50
  | p :: tl, v => if p.1 ≤ v then p.2 else lookupCriteria tl v

/-- Embeds `PropertyRanker._evaluate_price` under the default `PRICE_CRITERIA`. -/
def evaluate_price (pd : PropertyData) : ℚ :=
  let price_numeric := pd.price_numeric.getD 0
  let land_area_tsubo := pd.land_area_tsubo.getD 0
  if price_numeric ≤ 0 ∨ land_area_tsubo ≤ 0 then 50
  else
    let price_per_tsubo := price_numeric / land_area_tsubo
    if price_per_tsubo ≤ 10 then 100
    else if price_per_tsubo ≤ 15 then 80
    else if price_per_tsubo ≤ 20 then 60
    else if price_per_tsubo ≤ 25 then 40
    else if price_per_tsubo ≤ 30 then 20
    else 10

/-- Embeds `PropertyRanker._evaluate_location` under the default
`STATION_DISTANCE_CRITERIA` and the configured `PREMIUM_AREAS`. -/
def evaluate_location (pd : PropertyData) : ℚ :=
  let area_score : ℚ :=
    if premiumAreas.any (fun p => strContains pd.address p) then 100 else 50
  let station_score : ℚ :=
    match pd.walk_minutes with
    | some w =>
      if (w : ℚ) ≤ 5 then 100
      else if (w : ℚ) ≤ 10 then 80
      else if (w : ℚ) ≤ 15 then 60
      else if (w : ℚ) ≤ 20 then 40
      else if (w : ℚ) ≤ 30 then 20
      else 10
    | none => 30
  area_score * (1/2) + station_score * (1/2)

/-- Embeds `PropertyRanker._evaluate_area` under the default `AREA_CRITERIA`. -/
def evaluate_area (pd : PropertyData) : ℚ :=
  let land_area_tsubo := pd.land_area_tsubo.getD 0
  if land_area_tsubo ≤ 0 then 30
  else
    if 100 ≤ land_area_tsubo then 100
    else if 70 ≤ land_area_tsubo then 80
    else if 50 ≤ land_area_tsubo then 60
    else if 30 ≤ land_area_tsubo then 40
    else if 20 ≤ land_area_tsubo then 20
    else 10

/-- The zoning (用途地域) branch chain inside `_evaluate_investment`,
lines 248-258 of src/ranking.py, in source order: `商業` is tested first. -/
def usage_score (usage_area : String) : ℚ :=
  if strContains usage_area "商業" then 90
  else if strContains usage_area "近隣商業" then 80
  else if strContains usage_area "準工業" then 70
  else if strContains usage_area "第一種住居" ∨ strContains usage_area "第二種住居" then 60
  else if strContains usage_area "第一種低層" ∨ strContains usage_area "第二種低層" then 40
  else 50

/-- The `scores` list accumulated by `_evaluate_investment`: the coverage
component when `building_coverage > 0`, the ratio component when
`floor_area_ratio > 0`, and always the zoning component. -/
def investmentComponents (pd : PropertyData) : List ℚ :=
  (if 0 < pd.building_coverage.getD 0
   then [lookupCriteria coverageCriteria (pd.building_coverage.getD 0)] else []) ++
  (if 0 < pd.floor_area_ratio.getD 0
   then [lookupCriteria ratioCriteria (pd.floor_area_ratio.getD 0)] else []) ++
  [usage_score pd.usage_area]

/-- Embeds `PropertyRanker._evaluate_investment`. -/
def evaluate_investment (pd : PropertyData) : ℚ :=
  let scores := investmentComponents pd
  scores.sum / (scores.length : ℚ)

/-- The weighted total of `calculate_rank` under the default
`RANKING_WEIGHTS` (0.30/0.30/0.20/0.20). -/
def total_score (pd : PropertyData) : ℚ :=
  evaluate_price pd * (3/10) + evaluate_location pd * (3/10) +
    evaluate_area pd * (1/5) + evaluate_investment pd * (1/5)

/-- Embeds `PropertyRanker._determine_grade` under the default `RANK_THRESHOLDS`:
the loop over `['S', 'A', 'B', 'C']` returning on the first met threshold. -/
def determine_grade (total : ℚ) : String :=
  if 90 ≤ total then "S"
  else if 80 ≤ total then "A"
  else if 70 ≤ total then "B"
  else if 60 ≤ total then "C"
  else "D"

/-- Python's `round` to an integer: round half to even (banker's rounding). -/
def bankersRound (q : ℚ) : ℤ :=
  if q - (⌊q⌋ : ℚ) < 1/2 then ⌊q⌋
  else if 1/2 < q - (⌊q⌋ : ℚ) then ⌊q⌋ + 1
  else if ⌊q⌋ % 2 = 0 then ⌊q⌋ else ⌊q⌋ + 1

/-- Python's `round(x, 2)`. -/
def round2 (q : ℚ) : ℚ := (bankersRound (100 * q) : ℚ) / 100

/-- The result dictionary of `PropertyRanker.calculate_rank`. -/
structure RankResult where
  ranking_score : ℚ
  ranking_grade : String
  price_evaluation : ℚ
  location_evaluation : ℚ
  area_evaluation : ℚ
  investment_evaluation : ℚ

/-- Embeds `PropertyRanker.calculate_rank`: the grade is computed from the raw
weighted total; the stored score is the total rounded to 2 places. -/
def calculate_rank (pd : PropertyData) : RankResult :=
  { ranking_score := round2 (total_score pd)
    ranking_grade := determine_grade (total_score pd)
    price_evaluation := round2 (evaluate_price pd)
    location_evaluation := round2 (evaluate_location pd)
    area_evaluation := round2 (evaluate_area pd)
    investment_evaluation := round2 (evaluate_investment pd) }

/-- Spec-side reading of the grade rule: the list of bands scanned
S then A then B then C, each an inclusive lower threshold. -/
def gradeBandsSpec : List (String × ℚ) := [("S", 90), ("A", 80), ("B", 70), ("C", 60)]

/-- Scan a band list in order, returning the first band whose inclusive
lower threshold the value meets. -/
def scanBands : List (String × ℚ) → ℚ → String
  | [], _ => "D"
  | p :: tl, r => if p.2 ≤ r then p.1 else scanBands tl r

/-- Spec-side grade of a (rounded) total: the first band of
`gradeBandsSpec` whose threshold the value meets, default "D". -/
def gradeOfRoundedSpec (r : ℚ) : String := scanBands gradeBandsSpec r

/-! Arithmetic structure of the scores: every achievable weighted total is
an integer multiple of 1/6, so rounding it to 2 decimal places never crosses
one of the integral grade thresholds. -/

theorem evaluate_price_mult10 (pd : PropertyData) :
    ∃ k : ℤ, evaluate_price pd = 10 * k := by
  simp only [evaluate_price]
  split_ifs
  exacts [⟨5, by norm_num⟩, ⟨10, by norm_num⟩, ⟨8, by norm_num⟩, ⟨6, by norm_num⟩,
    ⟨4, by norm_num⟩, ⟨2, by norm_num⟩, ⟨1, by norm_num⟩]

theorem evaluate_location_mult5 (pd : PropertyData) :
    ∃ k : ℤ, evaluate_location pd = 5 * k := by
  cases hw : pd.walk_minutes with
  | none =>
    simp only [evaluate_location, hw]
    split_ifs
    exacts [⟨13, by norm_num⟩, ⟨8, by norm_num⟩]
  | some w =>
    simp only [evaluate_location, hw]
    split_ifs
    exacts [⟨20, by norm_num⟩, ⟨18, by norm_num⟩, ⟨16, by norm_num⟩, ⟨14, by norm_num⟩,
      ⟨12, by norm_num⟩, ⟨11, by norm_num⟩, ⟨15, by norm_num⟩, ⟨13, by norm_num⟩,
      ⟨11, by norm_num⟩, ⟨9, by norm_num⟩, ⟨7, by norm_num⟩, ⟨6, by norm_num⟩]

theorem evaluate_area_mult10 (pd : PropertyData) :
    ∃ k : ℤ, evaluate_area pd = 10 * k := by
  simp only [evaluate_area]
  split_ifs
  exacts [⟨3, by norm_num⟩, ⟨10, by norm_num⟩, ⟨8, by norm_num⟩, ⟨6, by norm_num⟩,
    ⟨4, by norm_num⟩, ⟨2, by norm_num⟩, ⟨1, by norm_num⟩]

theorem usage_score_mult10 (u : String) : ∃ k : ℤ, usage_score u = 10 * k := by
  simp only [usage_score]
  split_ifs
  exacts [⟨9, by norm_num⟩, ⟨8, by norm_num⟩, ⟨7, by norm_num⟩, ⟨6, by norm_num⟩,
    ⟨4, by norm_num⟩, ⟨5, by norm_num⟩]

theorem lookupCriteria_coverage_mult10 (v : ℚ) :
    ∃ k : ℤ, lookupCriteria coverageCriteria v = 10 * k := by
  simp only [coverageCriteria, lookupCriteria]
  split_ifs
  exacts [⟨10, by norm_num⟩, ⟨8, by norm_num⟩, ⟨6, by norm_num⟩, ⟨4, by norm_num⟩,
    ⟨5, by norm_num⟩]

theorem lookupCriteria_ratio_mult10 (v : ℚ) :
    ∃ k : ℤ, lookupCriteria ratioCriteria v = 10 * k := by
  simp only [ratioCriteria, lookupCriteria]
  split_ifs
  exacts [⟨10, by norm_num⟩, ⟨8, by norm_num⟩, ⟨6, by norm_num⟩, ⟨4, by norm_num⟩,
    ⟨5, by norm_num⟩]

theorem evaluate_investment_shape (pd : PropertyData) :
    ∃ (m : ℤ) (d : ℕ), (d = 1 ∨ d = 2 ∨ d = 3) ∧
      evaluate_investment pd = 10 * (m : ℚ) / (d : ℚ) := by
  obtain ⟨kc, hkc⟩ := lookupCriteria_coverage_mult10 (pd.building_coverage.getD 0)
  obtain ⟨kr, hkr⟩ := lookupCriteria_ratio_mult10 (pd.floor_area_ratio.getD 0)
  obtain ⟨ku, hku⟩ := usage_score_mult10 pd.usage_area
  simp only [evaluate_investment, investmentComponents]
  split_ifs with h1 h2 h2
  · refine ⟨kc + kr + ku, 3, Or.inr (Or.inr rfl), ?_⟩
    simp [hkc, hkr, hku]
    ring
  · refine ⟨kc + ku, 2, Or.inr (Or.inl rfl), ?_⟩
    simp [hkc, hku]
    ring
  · refine ⟨kr + ku, 2, Or.inr (Or.inl rfl), ?_⟩
    simp [hkr, hku]
    ring
  · refine ⟨ku, 1, Or.inl rfl, ?_⟩
    simp [hku]

theorem total_score_sixth (pd : PropertyData) :
    ∃ n : ℤ, total_score pd = (n : ℚ) / 6 := by
  obtain ⟨kp, hkp⟩ := evaluate_price_mult10 pd
  obtain ⟨kl, hkl⟩ := evaluate_location_mult5 pd
  obtain ⟨ka, hka⟩ := evaluate_area_mult10 pd
  obtain ⟨m, d, hd, hi⟩ := evaluate_investment_shape pd
  rcases hd with rfl | rfl | rfl
  · refine ⟨18 * kp + 9 * kl + 12 * ka + 12 * m, ?_⟩
    simp only [total_score, hkp, hkl, hka, hi]
    push_cast
    ring
  · refine ⟨18 * kp + 9 * kl + 12 * ka + 6 * m, ?_⟩
    simp only [total_score, hkp, hkl, hka, hi]
    push_cast
    ring
  · refine ⟨18 * kp + 9 * kl + 12 * ka + 4 * m, ?_⟩
    simp only [total_score, hkp, hkl, hka, hi]
    push_cast
    ring

/-- A rational threshold comparison against an integer quotient, reduced to
the integers. -/
theorem cast_le_div_iff (T B d : ℤ) (hd : 0 < d) :
    ((T : ℚ) ≤ (B : ℚ) / (d : ℚ)) ↔ T * d ≤ B := by
  rw [le_div_iff₀ (by exact_mod_cast hd : (0 : ℚ) < (d : ℚ))]
  exact_mod_cast Iff.rfl

/-- Rounding a multiple of 1/6 to two decimal places never moves it across
an integer threshold. -/
theorem round2_sixth_threshold (n T : ℤ) :
    ((T : ℚ) ≤ round2 ((n : ℚ) / 6)) ↔ ((T : ℚ) ≤ (n : ℚ) / 6) := by
  have hL : ((T : ℚ) ≤ round2 ((n : ℚ) / 6)) ↔
      T * 100 ≤ bankersRound (100 * ((n : ℚ) / 6)) := by
    rw [round2]
    exact cast_le_div_iff T _ 100 (by norm_num)
  have hR : ((T : ℚ) ≤ (n : ℚ) / 6) ↔ T * 6 ≤ n := cast_le_div_iff T n 6 (by norm_num)
  rw [hL, hR]
  obtain ⟨k, b, hb, rfl⟩ : ∃ k b : ℤ, (b = 0 ∨ b = 1 ∨ b = 2) ∧ n = 3 * k + b :=
    ⟨n / 3, n % 3, by omega, by omega⟩
  rcases hb with rfl | rfl | rfl
  · have hq : 100 * (((3 * k + 0 : ℤ) : ℚ) / 6) = ((50 * k : ℤ) : ℚ) := by
      push_cast; ring
    have hbr : bankersRound (100 * (((3 * k + 0 : ℤ) : ℚ) / 6)) = 50 * k := by
      rw [hq]
      simp only [bankersRound, Int.floor_intCast, sub_self]
      norm_num
    rw [hbr]
    omega
  · have hq : 100 * (((3 * k + 1 : ℤ) : ℚ) / 6) = ((50 * k : ℤ) : ℚ) + 50 / 3 := by
      push_cast; ring
    have hfl : ⌊((50 * k : ℤ) : ℚ) + 50 / 3⌋ = 50 * k + 16 := by
      rw [Int.floor_eq_iff]
      constructor <;> push_cast <;> linarith
    have hbr : bankersRound (100 * (((3 * k + 1 : ℤ) : ℚ) / 6)) = 50 * k + 17 := by
      rw [hq]
      simp only [bankersRound, hfl]
      have h1 : ¬(((50 * k : ℤ) : ℚ) + 50 / 3 - ((50 * k + 16 : ℤ) : ℚ) < 1 / 2) := by
        push_cast; intro h; linarith
      have h2 : (1 : ℚ) / 2 < ((50 * k : ℤ) : ℚ) + 50 / 3 - ((50 * k + 16 : ℤ) : ℚ) := by
        push_cast; linarith
      rw [if_neg h1, if_pos h2]
      omega
    rw [hbr]
    omega
  · have hq : 100 * (((3 * k + 2 : ℤ) : ℚ) / 6) = ((50 * k : ℤ) : ℚ) + 100 / 3 := by
      push_cast; ring
    have hfl : ⌊((50 * k : ℤ) : ℚ) + 100 / 3⌋ = 50 * k + 33 := by
      rw [Int.floor_eq_iff]
      constructor <;> push_cast <;> linarith
    have hbr : bankersRound (100 * (((3 * k + 2 : ℤ) : ℚ) / 6)) = 50 * k + 33 := by
      rw [hq]
      simp only [bankersRound, hfl]
      have h1 : ((50 * k : ℤ) : ℚ) + 100 / 3 - ((50 * k + 33 : ℤ) : ℚ) < 1 / 2 := by
        push_cast; linarith
      rw [if_pos h1]
    rw [hbr]
    omega

/-- C1: the grade produced by `calculate_rank` is the highest band whose
inclusive lower threshold the rounded total meets, scanned S then A then B
then C with default D; under the default thresholds a rounded total of 90.00
yields "S", 89.99 yields "A", and 0 yields "D". -/
theorem C1_grade_is_band_of_rounded_total :
    (∀ pd : PropertyData,
        (calculate_rank pd).ranking_grade = gradeOfRoundedSpec (round2 (total_score pd)))
    ∧ determine_grade 90 = "S" ∧ determine_grade (8999 / 100) = "A"
    ∧ determine_grade 0 = "D" := by
  refine ⟨?_, by norm_num [determine_grade], by norm_num [determine_grade],
    by norm_num [determine_grade]⟩
  intro pd
  obtain ⟨n, hn⟩ := total_score_sixth pd
  show determine_grade (total_score pd) = gradeOfRoundedSpec (round2 (total_score pd))
  rw [hn]
  have h90 : (90 : ℚ) ≤ round2 ((n : ℚ) / 6) ↔ (90 : ℚ) ≤ (n : ℚ) / 6 := by
    exact_mod_cast round2_sixth_threshold n 90
  have h80 : (80 : ℚ) ≤ round2 ((n : ℚ) / 6) ↔ (80 : ℚ) ≤ (n : ℚ) / 6 := by
    exact_mod_cast round2_sixth_threshold n 80
  have h70 : (70 : ℚ) ≤ round2 ((n : ℚ) / 6) ↔ (70 : ℚ) ≤ (n : ℚ) / 6 := by
    exact_mod_cast round2_sixth_threshold n 70
  have h60 : (60 : ℚ) ≤ round2 ((n : ℚ) / 6) ↔ (60 : ℚ) ≤ (n : ℚ) / 6 := by
    exact_mod_cast round2_sixth_threshold n 60
  simp only [determine_grade, gradeOfRoundedSpec, gradeBandsSpec, scanBands, h90, h80, h70, h60]

/-- C4: with both price and tsubo present and positive, the price sub-score
is a non-increasing step function of the per-tsubo price; per-tsubo 8, 12 and
35 give 100, 80 and 10; a missing or non-positive field gives the neutral 50. -/
theorem C4_price_score_monotone_step :
    (∀ (pd pd' : PropertyData) (p a p' a' : ℚ),
        pd.price_numeric = some p → pd.land_area_tsubo = some a →
        pd'.price_numeric = some p' → pd'.land_area_tsubo = some a' →
        0 < p → 0 < a → 0 < p' → 0 < a' →
        p / a ≤ p' / a' → evaluate_price pd' ≤ evaluate_price pd)
    ∧ evaluate_price ⟨some 8, some 1, "", none, none, none, ""⟩ = 100
    ∧ evaluate_price ⟨some 12, some 1, "", none, none, none, ""⟩ = 80
    ∧ evaluate_price ⟨some 35, some 1, "", none, none, none, ""⟩ = 10
    ∧ (∀ pd : PropertyData,
        pd.price_numeric.getD 0 ≤ 0 ∨ pd.land_area_tsubo.getD 0 ≤ 0 →
        evaluate_price pd = 50) := by
  refine ⟨?_, by norm_num [evaluate_price], by norm_num [evaluate_price],
    by norm_num [evaluate_price], ?_⟩
  · intro pd pd' p a p' a' hp ha hp' ha' h0p h0a h0p' h0a' hr
    simp only [evaluate_price, hp, ha, hp', ha', Option.getD_some]
    have hne : ¬(p ≤ 0 ∨ a ≤ 0) := by push_neg; exact ⟨h0p, h0a⟩
    have hne2 : ¬(p' ≤ 0 ∨ a' ≤ 0) := by push_neg; exact ⟨h0p', h0a'⟩
    rw [if_neg hne2, if_neg hne]
    split_ifs <;> linarith
  · intro pd h
    simp only [evaluate_price]
    rw [if_pos h]

/-- Concrete use of the C4 monotonicity at per-tsubo prices 8 and 12. -/
theorem C4_price_score_monotone_step_witness :
    evaluate_price ⟨some 12, some 1, "", none, none, none, ""⟩ ≤
      evaluate_price ⟨some 8, some 1, "", none, none, none, ""⟩ :=
  C4_price_score_monotone_step.1 ⟨some 8, some 1, "", none, none, none, ""⟩
    ⟨some 12, some 1, "", none, none, none, ""⟩ 8 1 12 1 rfl rfl rfl rfl
    (by norm_num) (by norm_num) (by norm_num) (by norm_num) (by norm_num)

/-! Listing store (src/database.py).  A `properties` row carries the key,
the mutable payload written by the scraper (every dict column other than
`property_id` and `scraped_at`), the two timestamps, and the active flag;
timestamps are abstract ticks. -/

/-- One row of the `properties` table. -/
structure DBRow where
  property_id : String
  fields : List (String × String)
  scraped_at : ℕ
  updated_at : ℕ
  is_active : Bool
deriving DecidableEq

/-- The dictionary handed to `upsert_property` by the scraper: it always
carries `property_id` and `scraped_at`, plus the other columns. -/
structure InRecord where
  property_id : String
  fields : List (String × String)
  scraped_at : ℕ
deriving DecidableEq

/-- Embeds `PropertyDatabase.upsert_property`: an existing `property_id` gets every
supplied column except `property_id` itself overwritten (including
`scraped_at`) and `updated_at` set to now; a new id is inserted, with the
SQL defaults `updated_at = CURRENT_TIMESTAMP` and `is_active = 1`. -/
def updateRow (rec : InRecord) (now : ℕ) (r : DBRow) : DBRow :=
  if r.property_id == rec.property_id then
    { r with fields := rec.fields, scraped_at := rec.scraped_at, updated_at := now }
  else r

def upsert_property (db : List DBRow) (rec : InRecord) (now : ℕ) :
    (Bool × String) × List DBRow :=
  match db.find? (fun r => r.property_id == rec.property_id) with
  | some _ =>
    ((false, rec.property_id), db.map (updateRow rec now))
  | none =>
    ((true, rec.property_id),
      db ++ [{ property_id := rec.property_id, fields := rec.fields,
               scraped_at := rec.scraped_at, updated_at := now, is_active := true }])

/-- Embeds `PropertyDatabase.deactivate_old_properties`: the SQL `UPDATE` branches of
the source (`NOT IN` when the id list is non-empty, unconditional otherwise),
each restricted to `is_active = 1`; the returned count is the SQL `rowcount`. -/
def deactivate_old_properties (db : List DBRow) (active_property_ids : List String)
    (now : ℕ) : ℕ × List DBRow :=
  if active_property_ids.isEmpty then
    ((db.filter (fun r => r.is_active)).length,
      db.map (fun r =>
        if r.is_active then { r with is_active := false, updated_at := now } else r))
  else
    ((db.filter (fun r =>
        r.is_active && !(active_property_ids.contains r.property_id))).length,
      db.map (fun r =>
        if r.is_active && !(active_property_ids.contains r.property_id) then
          { r with is_active := false, updated_at := now }
        else r))

/-- The per-row effect of reconciliation: deactivate and stamp exactly the
active rows whose id was not observed. -/
def deactivateRow (ids : List String) (now : ℕ) (r : DBRow) : DBRow :=
  if r.is_active && !(ids.contains r.property_id) then
    { r with is_active := false, updated_at := now }
  else r

theorem contains_eq_false_of_not_mem {ids : List String} {x : String} (h : x ∉ ids) :
    ids.contains x = false := by
  rw [Bool.eq_false_iff]
  intro hc
  exact h (List.mem_of_elem_eq_true hc)

theorem deactivate_eq_map (db : List DBRow) (ids : List String) (now : ℕ) :
    deactivate_old_properties db ids now =
      ((db.filter (fun r => r.is_active && !(ids.contains r.property_id))).length,
        db.map (deactivateRow ids now)) := by
  rw [deactivate_old_properties]
  split_ifs with h
  · have hids : ids = [] := List.isEmpty_iff.mp h
    subst hids
    simp [deactivateRow]
  · rfl

/-- C3: reconciliation with an empty observed set deactivates all currently
active rows and returns their number; with a set covering every stored id it
deactivates none; in general it flips `is_active` on exactly the active rows
whose id is not observed. -/
theorem C3_reconcile_exactly_unobserved_active :
    ∀ (db : List DBRow) (ids : List String) (now : ℕ),
      (deactivate_old_properties db ids now).2 = db.map (deactivateRow ids now)
      ∧ (deactivate_old_properties db ids now).1 =
          (db.filter (fun r => r.is_active && !(ids.contains r.property_id))).length
      ∧ (ids = [] →
          (deactivate_old_properties db ids now).1 = (db.filter (fun r => r.is_active)).length
          ∧ ∀ r ∈ (deactivate_old_properties db ids now).2, r.is_active = false)
      ∧ ((∀ r ∈ db, r.property_id ∈ ids) → (deactivate_old_properties db ids now).1 = 0) := by
  intro db ids now
  rw [deactivate_eq_map]
  refine ⟨rfl, rfl, ?_, ?_⟩
  · rintro rfl
    constructor
    · simp
    · intro r hr
      simp only [List.mem_map] at hr
      obtain ⟨s, _, rfl⟩ := hr
      simp only [deactivateRow, List.contains_nil, Bool.not_false, Bool.and_true]
      cases hs : s.is_active
      · simp [hs]
      · simp [hs]
  · intro hall
    rw [List.length_eq_zero, List.filter_eq_nil_iff]
    intro r hr
    simp only [Bool.and_eq_true, Bool.not_eq_true']
    rintro ⟨-, hc⟩
    have hc2 : ids.contains r.property_id = true := List.elem_eq_true_of_mem (hall r hr)
    rw [hc2] at hc
    cases hc

/-- Concrete use of C3 at a one-row store and an empty observed set. -/
theorem C3_reconcile_exactly_unobserved_active_witness :
    (deactivate_old_properties [⟨"athome_1", [], 0, 0, true⟩] [] 5).1 = 1 :=
  ((C3_reconcile_exactly_unobserved_active [⟨"athome_1", [], 0, 0, true⟩] [] 5).2.2.1
    rfl).1.trans (by rfl)

/-- C10: reconciliation leaves every already-inactive row untouched (all
fields, `updated_at` included) whatever the observed set is, and each row it
deactivates gets `is_active := false` with `updated_at` stamped in the same
step while every other field is kept. -/
theorem C10_reconcile_frame :
    ∀ (db : List DBRow) (ids : List String) (now : ℕ) (i : ℕ) (r : DBRow),
      db[i]? = some r →
      (r.is_active = false → (deactivate_old_properties db ids now).2[i]? = some r)
      ∧ (r.is_active = true → r.property_id ∉ ids →
          (deactivate_old_properties db ids now).2[i]? =
            some { r with is_active := false, updated_at := now }) := by
  intro db ids now i r hi
  rw [deactivate_eq_map]
  constructor
  · intro hact
    rw [List.getElem?_map, hi, Option.map]
    rw [deactivateRow, hact]
    simp
  · intro hact hmem
    rw [List.getElem?_map, hi, Option.map]
    rw [deactivateRow, hact, contains_eq_false_of_not_mem hmem]
    simp

/-- Concrete use of C10: an inactive row survives reconciliation unchanged. -/
theorem C10_reconcile_frame_witness :
    (deactivate_old_properties [⟨"athome_1", [], 0, 3, false⟩] [] 5).2[0]? =
      some ⟨"athome_1", [], 0, 3, false⟩ :=
  (C10_reconcile_frame [⟨"athome_1", [], 0, 3, false⟩] [] 5 0
    ⟨"athome_1", [], 0, 3, false⟩ rfl).1 rfl


/-! C2: what upsert does to an existing id. -/

/-- A row with its `updated_at` column masked out. -/
def stripUpdated (r : DBRow) : DBRow := { r with updated_at := 0 }

theorem updateRow_property_id (rec : InRecord) (now : ℕ) (r : DBRow) :
    (updateRow rec now r).property_id = r.property_id := by
  rw [updateRow]
  split_ifs <;> rfl

theorem find?_map_updateRow (db : List DBRow) (rec : InRecord) (now : ℕ) :
    (db.map (updateRow rec now)).find? (fun r => r.property_id == rec.property_id)
      = (db.find? (fun r => r.property_id == rec.property_id)).map (updateRow rec now) := by
  induction db with
  | nil => rfl
  | cons s tl ih =>
    simp only [List.map_cons, List.find?, updateRow_property_id]
    cases h : s.property_id == rec.property_id
    · simpa [h] using ih
    · simp [h]

theorem updateRow_updateRow (rec : InRecord) (now t2 : ℕ) (s : DBRow) :
    updateRow rec t2 (updateRow rec now s) = updateRow rec t2 s := by
  simp only [updateRow]
  split_ifs <;> simp_all

theorem strip_updateRow_time (rec : InRecord) (t t2 : ℕ) (r : DBRow) :
    stripUpdated (updateRow rec t r) = stripUpdated (updateRow rec t2 r) := by
  simp only [updateRow, stripUpdated]
  split_ifs <;> rfl

/-- C2 (amended): upserting an id already present overwrites every supplied
column except `property_id` itself — `scraped_at` included, which takes the
incoming record's scrape time, not the first-sight one — and stamps
`updated_at`; `is_active` and the id survive, untouched rows stay put, and
re-upserting the identical record moves only `updated_at`. -/
theorem C2_upsert_overwrite_amended :
    ∀ (db : List DBRow) (rec : InRecord) (now : ℕ),
      (∃ r0, db.find? (fun r => r.property_id == rec.property_id) = some r0) →
      (upsert_property db rec now).1.1 = false
      ∧ (∀ (i : ℕ) (r : DBRow), db[i]? = some r → r.property_id = rec.property_id →
          (upsert_property db rec now).2[i]? =
            some { r with fields := rec.fields, scraped_at := rec.scraped_at,
                          updated_at := now })
      ∧ (∀ (i : ℕ) (r : DBRow), db[i]? = some r → r.property_id ≠ rec.property_id →
          (upsert_property db rec now).2[i]? = some r)
      ∧ (∀ t2 : ℕ,
          ((upsert_property (upsert_property db rec now).2 rec t2).2).map stripUpdated
            = ((upsert_property db rec now).2).map stripUpdated
          ∧ (∀ (i : ℕ) (r : DBRow), (upsert_property db rec now).2[i]? = some r →
              r.property_id = rec.property_id →
              ∃ rr, (upsert_property (upsert_property db rec now).2 rec t2).2[i]? = some rr
                ∧ rr.updated_at = t2 ∧ stripUpdated rr = stripUpdated r)) := by
  intro db rec now h
  obtain ⟨r0, hfind⟩ := h
  have h1 : upsert_property db rec now
      = ((false, rec.property_id), db.map (updateRow rec now)) := by
    rw [upsert_property, hfind]
  have hfind2 : (db.map (updateRow rec now)).find? (fun r => r.property_id == rec.property_id)
      = some (updateRow rec now r0) := by
    rw [find?_map_updateRow, hfind, Option.map]
  refine ⟨by rw [h1], ?_, ?_, ?_⟩
  · intro i r hi hid
    rw [h1]
    rw [List.getElem?_map, hi, Option.map]
    rw [updateRow, if_pos (beq_iff_eq.mpr hid)]
  · intro i r hi hid
    rw [h1]
    rw [List.getElem?_map, hi, Option.map]
    rw [updateRow, if_neg (by simp [hid])]
  · intro t2
    have h3 : upsert_property (db.map (updateRow rec now)) rec t2
        = ((false, rec.property_id), (db.map (updateRow rec now)).map (updateRow rec t2)) := by
      rw [upsert_property, hfind2]
    constructor
    · rw [h1, h3]
      simp only [List.map_map]
      apply List.map_congr_left
      intro s _
      simp only [Function.comp_apply]
      rw [updateRow_updateRow]
      exact strip_updateRow_time rec t2 now s
    · intro i r hi hid
      rw [h1] at hi ⊢
      rw [h3]
      simp only [List.getElem?_map] at hi
      cases hdb : db[i]? with
      | none => simp [hdb] at hi
      | some s =>
        rw [hdb, Option.map] at hi
        cases hi
        refine ⟨updateRow rec t2 (updateRow rec now s), ?_, ?_, ?_⟩
        · simp only [List.getElem?_map, hdb, Option.map]
        · rw [updateRow_updateRow, updateRow,
            if_pos (beq_iff_eq.mpr ((updateRow_property_id rec now s) ▸ hid))]
        · rw [updateRow_updateRow]
          exact strip_updateRow_time rec t2 now s

/-- Concrete use of the amended C2 at a two-field store. -/
theorem C2_upsert_overwrite_amended_witness :
    (upsert_property [⟨"athome_1", [("title", "a")], 1, 1, true⟩]
      ⟨"athome_1", [("title", "b")], 7⟩ 9).2[0]? =
      some ⟨"athome_1", [("title", "b")], 7, 9, true⟩ :=
  ((C2_upsert_overwrite_amended [⟨"athome_1", [("title", "a")], 1, 1, true⟩]
      ⟨"athome_1", [("title", "b")], 7⟩ 9 ⟨⟨"athome_1", [("title", "a")], 1, 1, true⟩,
      rfl⟩).2.1 0 ⟨"athome_1", [("title", "a")], 1, 1, true⟩ rfl rfl)

/-- C2 counterexample: re-upserting the same id with a later scrape time
replaces the stored `scraped_at`; the first-sight value 1 is not kept. -/
theorem C2_scrapedAt_overwritten_counterexample :
    ((upsert_property (upsert_property [] ⟨"athome_1", [("title", "t")], 1⟩ 10).2
        ⟨"athome_1", [("title", "t")], 2⟩ 20).2.map DBRow.scraped_at = [2])
    ∧ (2 : ℕ) ≠ 1 := by
  constructor
  · rfl
  · decide


/-! Field extraction (src/athome_scraper.py).  Each regular expression of
`_scrape_property_detail` is modelled by a scanner with `re.search`
semantics: positions are tried left to right and the character classes of
these patterns admit no backtracking, so the greedy reading is exact. -/

/-- The class `[\d,]`. -/
def isDigitComma (c : Char) : Bool := c.isDigit || c == ','

/-- The group `[\d,]+\.?\d*` at the current position: the matched text and
the remainder, or `none`. -/
def numGroupAt (cs : List Char) : Option (String × List Char) :=
  let g1 := cs.takeWhile isDigitComma
  let rest1 := cs.dropWhile isDigitComma
  if g1.isEmpty then none
  else
    match rest1 with
    | '.' :: rest2 =>
      (String.mk (g1 ++ '.' :: rest2.takeWhile Char.isDigit),
        rest2.dropWhile Char.isDigit)
    | _ => (String.mk g1, rest1)

/-- Pattern `([\d,]+)\s*万円` at the current position. -/
def priceManYenAt (cs : List Char) : Option String :=
  let g := cs.takeWhile isDigitComma
  let rest := (cs.dropWhile isDigitComma).dropWhile Char.isWhitespace
  if g.isEmpty then none
  else
    match rest with
    | '万' :: '円' :: _ => some (String.mk g)
    | _ => none

/-- Pattern `([\d,]+\.?\d*)\s*m2|㎡` at the current position: `some (some g)` when
the first alternative matches with group `g`, `some none` when only the bare
`㎡` alternative matches (the group is then Python's `None`). -/
def m2At (cs : List Char) : Option (Option String) :=
  let alt1 : Option String :=
    match numGroupAt cs with
    | some (g, rest) =>
      (match rest.dropWhile Char.isWhitespace with
       | 'm' :: '2' :: _ => some g
       | _ => none)
    | none => none
  match alt1 with
  | some g => some (some g)
  | none =>
    match cs with
    | '㎡' :: _ => some none
    | _ => none

/-- Pattern `([\d,]+\.?\d*)\s*坪` at the current position. -/
def tsuboAt (cs : List Char) : Option String :=
  match numGroupAt cs with
  | some (g, rest) =>
    (match rest.dropWhile Char.isWhitespace with
     | '坪' :: _ => some g
     | _ => none)
  | none => none

/-- Pattern `徒歩\s*(\d+)\s*分` at the current position. -/
def walkAt (cs : List Char) : Option String :=
  match cs with
  | '徒' :: '歩' :: rest =>
    let rest1 := rest.dropWhile Char.isWhitespace
    let g := rest1.takeWhile Char.isDigit
    let rest2 := (rest1.dropWhile Char.isDigit).dropWhile Char.isWhitespace
    if g.isEmpty then none
    else
      match rest2 with
      | '分' :: _ => some (String.mk g)
      | _ => none
  | _ => none

/-- Pattern `(\d+)\s*[%％]` at the current position. -/
def percentAt (cs : List Char) : Option String :=
  let g := cs.takeWhile Char.isDigit
  let rest := (cs.dropWhile Char.isDigit).dropWhile Char.isWhitespace
  if g.isEmpty then none
  else
    match rest with
    | '%' :: _ => some (String.mk g)
    | '％' :: _ => some (String.mk g)
    | _ => none

/-- Pattern `/(\d+)` at the current position. -/
def slashDigitsAt (cs : List Char) : Option String :=
  match cs with
  | '/' :: rest =>
    let g := rest.takeWhile Char.isDigit
    if g.isEmpty then none else some (String.mk g)
  | _ => none

/-- Models `re.search`: try the position-matcher at each position, leftmost wins. -/
def searchWith (m : List Char → Option α) : List Char → Option α
  | [] => m []
  | c :: cs =>
    match m (c :: cs) with
    | some r => some r
    | none => searchWith m cs

def searchPriceManYen (cs : List Char) : Option String := searchWith priceManYenAt cs

def searchM2 (cs : List Char) : Option (Option String) := searchWith m2At cs

def searchTsubo (cs : List Char) : Option String := searchWith tsuboAt cs

def searchWalk (cs : List Char) : Option String := searchWith walkAt cs

def searchPercent (cs : List Char) : Option String := searchWith percentAt cs

def searchSlashDigits (cs : List Char) : Option String := searchWith slashDigitsAt cs

/-- Models `text.replace(',', '')`. -/
def stripCommas (s : String) : String := String.mk (s.data.filter (fun c => c ≠ ','))

/-- Digits to their value. -/
def digitsToNat (cs : List Char) : ℕ :=
  cs.foldl (fun a c => a * 10 + (c.toNat - 48)) 0

/-- Python `int()` on the comma-stripped strings these groups produce:
a non-empty digit string parses, anything else raises. -/
def pyInt (s : String) : Except Unit ℤ :=
  if s.data ≠ [] ∧ s.data.all Char.isDigit then .ok (digitsToNat s.data : ℕ)
  else .error ()

/-- Python `float()` on the comma-stripped strings these groups produce:
digits with at most one dot and at least one digit parse, anything else
(`""`, `"."`) raises. -/
def pyFloat (s : String) : Except Unit ℚ :=
  let intPart := s.data.takeWhile (fun c => c ≠ '.')
  match s.data.dropWhile (fun c => c ≠ '.') with
  | [] =>
    if intPart ≠ [] ∧ intPart.all Char.isDigit then .ok (digitsToNat intPart : ℕ)
    else .error ()
  | '.' :: frac =>
    if intPart.all Char.isDigit ∧ frac.all Char.isDigit ∧ (intPart ≠ [] ∨ frac ≠ []) then
      .ok ((digitsToNat intPart : ℚ) + (digitsToNat frac : ℚ) / (10 ^ frac.length))
    else .error ()
  | _ :: _ => .error ()


/-! Id derivation (`_extract_property_id`): `urlparse(url).path`, the
`/(\d+)` search, and the `hashlib.md5(url).hexdigest()[:10]` fallback. -/

/-- A character allowed in a URL scheme after the initial letter. -/
def isSchemeChar (c : Char) : Bool := c.isAlphanum || c == '+' || c == '-' || c == '.'

/-- Drop a leading `scheme:` when present, as `urllib.parse.urlparse` does. -/
def dropScheme (cs : List Char) : List Char :=
  match cs.dropWhile (fun c => c ≠ ':') with
  | ':' :: rest =>
    (match cs.takeWhile (fun c => c ≠ ':') with
     | c0 :: pre =>
       if c0.isAlpha && pre.all isSchemeChar then rest else cs
     | [] => cs)
  | _ => cs

/-- Drop a leading `//netloc`, as `urlparse` does. -/
def dropNetloc (cs : List Char) : List Char :=
  match cs with
  | '/' :: '/' :: rest =>
    rest.dropWhile (fun c => !(c == '/' || c == '?' || c == '#'))
  | _ => cs

/-- Models `urllib.parse.urlparse(url).path` for the http/https URLs the scraper
sees: scheme and netloc removed, query and fragment cut off. -/
def urlPath (url : String) : String :=
  String.mk ((dropNetloc (dropScheme url.data)).takeWhile
    (fun c => !(c == '?' || c == '#')))

/-- Wrap to 32 bits. -/
def uint32 (n : ℕ) : ℕ := n % 4294967296

/-- Left rotation of a reduced 32-bit word. -/
def rotl32 (x c : ℕ) : ℕ := (x % 2 ^ (32 - c)) * 2 ^ c + x / 2 ^ (32 - c)

/-- Bitwise complement of a reduced 32-bit word. -/
def not32 (x : ℕ) : ℕ := 4294967295 - x

/-- The md5 sine-derived constant table (RFC 1321). -/
def md5K : List ℕ :=
  [3614090360, 3905402710, 606105819, 3250441966,
   4118548399, 1200080426, 2821735955, 4249261313,
   1770035416, 2336552879, 4294925233, 2304563134,
   1804603682, 4254626195, 2792965006, 1236535329,
   4129170786, 3225465664, 643717713, 3921069994,
   3593408605, 38016083, 3634488961, 3889429448,
   568446438, 3275163606, 4107603335, 1163531501,
   2850285829, 4243563512, 1735328473, 2368359562,
   4294588738, 2272392833, 1839030562, 4259657740,
   2763975236, 1272893353, 4139469664, 3200236656,
   681279174, 3936430074, 3572445317, 76029189,
   3654602809, 3873151461, 530742520, 3299628645,
   4096336452, 1126891415, 2878612391, 4237533241,
   1700485571, 2399980690, 4293915773, 2240044497,
   1873313359, 4264355552, 2734768916, 1309151649,
   4149444226, 3174756917, 718787259, 3951481745]

/-- The md5 per-round shift table. -/
def md5S : List ℕ :=
  [7, 12, 17, 22, 7, 12, 17, 22, 7, 12, 17, 22, 7, 12, 17, 22,
   5, 9, 14, 20, 5, 9, 14, 20, 5, 9, 14, 20, 5, 9, 14, 20,
   4, 11, 16, 23, 4, 11, 16, 23, 4, 11, 16, 23, 4, 11, 16, 23,
   6, 10, 15, 21, 6, 10, 15, 21, 6, 10, 15, 21, 6, 10, 15, 21]

/-- md5 padding: a 0x80 byte, zeros to 56 mod 64, then the bit length as
eight little-endian bytes. -/
def md5pad (msg : List ℕ) : List ℕ :=
  let z := (120 - (msg.length + 1) % 64) % 64
  let bitlen := (8 * msg.length) % 2 ^ 64
  msg ++ [128] ++ List.replicate z 0 ++
    [bitlen % 256, bitlen / 256 % 256, bitlen / 256 ^ 2 % 256, bitlen / 256 ^ 3 % 256,
     bitlen / 256 ^ 4 % 256, bitlen / 256 ^ 5 % 256, bitlen / 256 ^ 6 % 256,
     bitlen / 256 ^ 7 % 256]

/-- Split a padded message into 64-byte chunks. -/
def chunks64 : List ℕ → List (List ℕ)
  | [] => []
  | c :: cs => (c :: cs).take 64 :: chunks64 ((c :: cs).drop 64)
termination_by l => l.length
decreasing_by
  simp [List.length_drop]
  omega

/-- Group 64 bytes into 16 little-endian 32-bit words. -/
def words16 : List ℕ → List ℕ
  | b0 :: b1 :: b2 :: b3 :: rest =>
    (b0 + 256 * b1 + 65536 * b2 + 16777216 * b3) :: words16 rest
  | _ => []

/-- One md5 round applied to the state `(a, b, c, d)` at index `i`. -/
def md5round (M : List ℕ) (st : ℕ × ℕ × ℕ × ℕ) (i : ℕ) : ℕ × ℕ × ℕ × ℕ :=
  let (a, b, c, d) := st
  let fg : ℕ × ℕ :=
    if i < 16 then (((b.land c).lor ((not32 b).land d)), i)
    else if i < 32 then (((d.land b).lor ((not32 d).land c)), (5 * i + 1) % 16)
    else if i < 48 then ((b.xor c).xor d, (3 * i + 5) % 16)
    else (c.xor (b.lor (not32 d)), (7 * i) % 16)
  let f := uint32 (fg.1 + a + md5K.getD i 0 + M.getD fg.2 0)
  (d, uint32 (b + rotl32 f (md5S.getD i 0)), b, c)

/-- Process one 64-byte chunk. -/
def md5compress (st : ℕ × ℕ × ℕ × ℕ) (chunk : List ℕ) : ℕ × ℕ × ℕ × ℕ :=
  let M := words16 chunk
  let r := (List.range 64).foldl (md5round M) st
  (uint32 (st.1 + r.1), uint32 (st.2.1 + r.2.1),
   uint32 (st.2.2.1 + r.2.2.1), uint32 (st.2.2.2 + r.2.2.2))

/-- The md5 state after absorbing a byte message. -/
def md5core (msg : List ℕ) : ℕ × ℕ × ℕ × ℕ :=
  (chunks64 (md5pad msg)).foldl md5compress
    (1732584193, 4023233417, 2562383102, 271733878)

/-- A 32-bit word as four little-endian bytes. -/
def wordLEBytes (w : ℕ) : List ℕ :=
  [w % 256, w / 256 % 256, w / 65536 % 256, w / 16777216 % 256]

/-- The 16 digest bytes. -/
def md5digest (msg : List ℕ) : List ℕ :=
  wordLEBytes (md5core msg).1 ++ wordLEBytes (md5core msg).2.1 ++
    wordLEBytes (md5core msg).2.2.1 ++ wordLEBytes (md5core msg).2.2.2

/-- The sixteen lowercase hex digits. -/
def hexDigits : List Char := "0123456789abcdef".data

/-- A hex digit, lowercase. -/
def hexChar (n : ℕ) : Char := hexDigits.getD n 'f'

/-- One byte as two lowercase hex characters. -/
def byteHex (b : ℕ) : List Char := [hexChar (b / 16 % 16), hexChar (b % 16)]

/-- The utf-8 bytes of a string, `url.encode()`. -/
def strBytes (s : String) : List ℕ := s.toUTF8.toList.map (fun b => b.toNat)

/-- Models `hashlib.md5(url.encode()).hexdigest()` as a character list. -/
def md5hexChars (s : String) : List Char := ((md5digest (strBytes s)).map byteHex).flatten

/-- Embeds `AthomeScraper._extract_property_id`. -/
def extract_property_id (url : String) : String :=
  match searchSlashDigits (urlPath url).data with
  | some d => "athome_" ++ d
  | none => "athome_" ++ String.mk ((md5hexChars url).take 10)


/-! The extractor `_scrape_property_detail`: the page is the text of each selected
fragment (`select_one` results, `none` when absent) plus the image URLs;
every field parse runs inside the function's single `try`, so any raising
parse discards the whole record (`return None`), while a regex that merely
fails to match leaves its field absent. -/

/-- The fragments `_scrape_property_detail` reads from the parsed page. -/
structure Page where
  title : Option String
  price : Option String
  address : Option String
  area : Option String
  station : Option String
  coverage : Option String
  ratio : Option String
  usage : Option String
  images : List String
deriving DecidableEq

/-- The record dict built by `_scrape_property_detail`. -/
structure ScrapedData where
  property_id : String
  url : String
  scraped_at : ℕ
  title : String
  price : Option String
  price_numeric : Option ℤ
  address : String
  land_area : Option String
  land_area_m2 : Option ℚ
  land_area_tsubo : Option ℚ
  nearest_station : Option String
  walk_time : Option String
  walk_minutes : Option ℤ
  building_coverage : Option ℚ
  floor_area_ratio : Option ℚ
  usage_area : String
  image_urls : List String
deriving DecidableEq

/-- The m2-per-tsubo divisor `3.305785`. -/
def CONV : ℚ := 3305785 / 1000000

/-- The price block: `re.search` then `int(group(1).replace(',', ''))`. -/
def priceStep (price : Option String) : Except Unit (Option String × Option ℤ) :=
  match price with
  | none => .ok (none, none)
  | some t =>
    match searchPriceManYen t.data with
    | none => .ok (some t, none)
    | some g =>
      match pyInt (stripCommas g) with
      | .error e => .error e
      | .ok n => .ok (some t, some n)

/-- The land-area block: the `m2` alternation first (a bare-`㎡` match makes
`group(1)` Python `None` and the `.replace` call raise), then the direct
`坪` pattern, which overwrites the derived tsubo value. -/
def areaStep (area : Option String) :
    Except Unit (Option String × Option ℚ × Option ℚ) :=
  match area with
  | none => .ok (none, none, none)
  | some t =>
    let m2part : Except Unit (Option ℚ × Option ℚ) :=
      match searchM2 t.data with
      | none => .ok (none, none)
      | some none => .error ()
      | some (some g) =>
        match pyFloat (stripCommas g) with
        | .error e => .error e
        | .ok v => .ok (some v, some (v / CONV))
    match m2part with
    | .error e => .error e
    | .ok (m2v, ts) =>
      match searchTsubo t.data with
      | none => .ok (some t, m2v, ts)
      | some g =>
        match pyFloat (stripCommas g) with
        | .error e => .error e
        | .ok v => .ok (some t, m2v, some v)

/-- The station block: `徒歩(\d+)分` gives both the display walk time and
the numeric minutes. -/
def stationStep (station : Option String) :
    Except Unit (Option String × Option String × Option ℤ) :=
  match station with
  | none => .ok (none, none, none)
  | some t =>
    match searchWalk t.data with
    | none => .ok (some t, none, none)
    | some g =>
      match pyInt g with
      | .error e => .error e
      | .ok n => .ok (some t, some ("徒歩" ++ g ++ "分"), some n)

/-- A percentage block (`建ぺい率` or `容積率`): `(\d+)[%％]` then `float`. -/
def percentStep (txt : Option String) : Except Unit (Option ℚ) :=
  match txt with
  | none => .ok none
  | some t =>
    match searchPercent t.data with
    | none => .ok none
    | some g =>
      match pyFloat g with
      | .error e => .error e
      | .ok v => .ok (some v)

/-- The body of `_scrape_property_detail` inside its `try`. -/
def scrapeInner (page : Page) (url : String) (now : ℕ) : Except Unit ScrapedData :=
  (priceStep page.price).bind fun pr =>
  (areaStep page.area).bind fun ar =>
  (stationStep page.station).bind fun st =>
  (percentStep page.coverage).bind fun bc =>
  (percentStep page.ratio).bind fun fr =>
  .ok { property_id := extract_property_id url
        url := url
        scraped_at := now
        title := page.title.getD "タイトルなし"
        price := pr.1
        price_numeric := pr.2
        address := page.address.getD ""
        land_area := ar.1
        land_area_m2 := ar.2.1
        land_area_tsubo := ar.2.2
        nearest_station := st.1
        walk_time := st.2.1
        walk_minutes := st.2.2
        building_coverage := bc
        floor_area_ratio := fr
        usage_area := page.usage.getD ""
        image_urls := page.images.take 5 }

/-- Embeds `_scrape_property_detail`: the whole body is wrapped in one
`try/except`, which converts any raising parse into `return None`. -/
def scrape_property_detail (page : Page) (url : String) (now : ℕ) :
    Option ScrapedData :=
  match scrapeInner page url now with
  | .ok d => some d
  | .error _ => none


/-- Whether an extraction step succeeded. -/
def stepOk {α : Type} (e : Except Unit α) : Bool :=
  match e with
  | .ok _ => true
  | .error _ => false

/-- No field parse of the page raises: the record-level handler stays idle. -/
def noFieldRaise (page : Page) : Bool :=
  stepOk (priceStep page.price) && stepOk (areaStep page.area)
    && stepOk (stationStep page.station) && stepOk (percentStep page.coverage)
    && stepOk (percentStep page.ratio)

theorem stepOk_iff {α : Type} (e : Except Unit α) : stepOk e = true ↔ ∃ a, e = .ok a := by
  cases e <;> simp [stepOk]

/-- A successful `_scrape_property_detail` is exactly the five steps
succeeding, with the record assembled from their results. -/
theorem scrape_some_steps (page : Page) (url : String) (now : ℕ) (r : ScrapedData)
    (h : scrape_property_detail page url now = some r) :
    priceStep page.price = .ok (r.price, r.price_numeric)
    ∧ areaStep page.area = .ok (r.land_area, r.land_area_m2, r.land_area_tsubo)
    ∧ stationStep page.station = .ok (r.nearest_station, r.walk_time, r.walk_minutes)
    ∧ percentStep page.coverage = .ok r.building_coverage
    ∧ percentStep page.ratio = .ok r.floor_area_ratio
    ∧ r.title = page.title.getD "タイトルなし"
    ∧ r.address = page.address.getD ""
    ∧ r.usage_area = page.usage.getD ""
    ∧ r.property_id = extract_property_id url
    ∧ r.url = url ∧ r.scraped_at = now ∧ r.image_urls = page.images.take 5 := by
  rw [scrape_property_detail, scrapeInner] at h
  cases hpr : priceStep page.price with
  | error e => rw [hpr] at h; cases h
  | ok pr =>
    rw [hpr] at h
    cases har : areaStep page.area with
    | error e => rw [har] at h; cases h
    | ok ar =>
      rw [har] at h
      cases hst : stationStep page.station with
      | error e => rw [hst] at h; cases h
      | ok st =>
        rw [hst] at h
        cases hbc : percentStep page.coverage with
        | error e => rw [hbc] at h; cases h
        | ok bc =>
          rw [hbc] at h
          cases hfr : percentStep page.ratio with
          | error e => rw [hfr] at h; cases h
          | ok fr =>
            rw [hfr] at h
            simp only [Except.bind, Option.some.injEq] at h
            subst h
            exact ⟨rfl, rfl, rfl, rfl, rfl, rfl, rfl, rfl, rfl, rfl, rfl, rfl⟩

theorem priceStep_numeric_isSome (price : Option String) (pr : Option String × Option ℤ)
    (h : priceStep price = .ok pr) :
    pr.2.isSome = (price.bind fun t => searchPriceManYen t.data).isSome := by
  cases price with
  | none => simp only [priceStep, Except.ok.injEq] at h; subst h; rfl
  | some t =>
    cases hs : searchPriceManYen t.data with
    | none =>
      simp only [priceStep, hs, Except.ok.injEq] at h
      subst h
      simp [hs]
    | some g =>
      cases hp : pyInt (stripCommas g) with
      | error e => simp [priceStep, hs, hp] at h
      | ok n =>
        simp only [priceStep, hs, hp, Except.ok.injEq] at h
        subst h
        simp [hs]

theorem stationStep_minutes_isSome (station : Option String)
    (st : Option String × Option String × Option ℤ)
    (h : stationStep station = .ok st) :
    st.2.2.isSome = (station.bind fun t => searchWalk t.data).isSome := by
  cases station with
  | none => simp only [stationStep, Except.ok.injEq] at h; subst h; rfl
  | some t =>
    cases hs : searchWalk t.data with
    | none =>
      simp only [stationStep, hs, Except.ok.injEq] at h
      subst h
      simp [hs]
    | some g =>
      cases hp : pyInt g with
      | error e => simp [stationStep, hs, hp] at h
      | ok n =>
        simp only [stationStep, hs, hp, Except.ok.injEq] at h
        subst h
        simp [hs]

theorem percentStep_isSome (txt : Option String) (v : Option ℚ)
    (h : percentStep txt = .ok v) :
    v.isSome = (txt.bind fun t => searchPercent t.data).isSome := by
  cases txt with
  | none => simp only [percentStep, Except.ok.injEq] at h; subst h; rfl
  | some t =>
    cases hs : searchPercent t.data with
    | none =>
      simp only [percentStep, hs, Except.ok.injEq] at h
      subst h
      simp [hs]
    | some g =>
      cases hp : pyFloat g with
      | error e => simp [percentStep, hs, hp] at h
      | ok n =>
        simp only [percentStep, hs, hp, Except.ok.injEq] at h
        subst h
        simp [hs]


theorem areaStep_bareM2 (t : String) (hm : searchM2 t.data = some none) :
    areaStep (some t) = .error () := by
  simp only [areaStep, hm]

theorem areaStep_m2err (t g : String) (hm : searchM2 t.data = some (some g))
    (hv : pyFloat (stripCommas g) = .error ()) : areaStep (some t) = .error () := by
  simp only [areaStep, hm, hv]

theorem areaStep_m2_noTsubo (t g : String) (v : ℚ)
    (hm : searchM2 t.data = some (some g)) (hv : pyFloat (stripCommas g) = .ok v)
    (ht : searchTsubo t.data = none) :
    areaStep (some t) = .ok (some t, some v, some (v / CONV)) := by
  simp only [areaStep, hm, hv, ht]

theorem areaStep_m2_tsubo (t g gt : String) (v vt : ℚ)
    (hm : searchM2 t.data = some (some g)) (hv : pyFloat (stripCommas g) = .ok v)
    (ht : searchTsubo t.data = some gt) (hvt : pyFloat (stripCommas gt) = .ok vt) :
    areaStep (some t) = .ok (some t, some v, some vt) := by
  simp only [areaStep, hm, hv, ht, hvt]

theorem areaStep_noM2_tsubo (t gt : String) (vt : ℚ)
    (hm : searchM2 t.data = none)
    (ht : searchTsubo t.data = some gt) (hvt : pyFloat (stripCommas gt) = .ok vt) :
    areaStep (some t) = .ok (some t, none, some vt) := by
  simp only [areaStep, hm, ht, hvt]

theorem areaStep_tsuboErr (t gt : String)
    (hm : (searchM2 t.data).isNone ∨ ∃ g v, searchM2 t.data = some (some g)
      ∧ pyFloat (stripCommas g) = .ok v)
    (ht : searchTsubo t.data = some gt) (hvt : pyFloat (stripCommas gt) = .error ()) :
    areaStep (some t) = .error () := by
  rcases hm with hm | ⟨g, v, hm, hv⟩
  · rw [Option.isNone_iff_eq_none] at hm
    simp only [areaStep, hm, ht, hvt]
  · simp only [areaStep, hm, hv, ht, hvt]

/-- Extraction never yields a record when the area text's
leftmost area-pattern match is the bare `㎡` alternative: the `AttributeError`
from `group(1)` is caught at record level and the page is dropped. -/
theorem scrape_bareM2_none (page : Page) (url : String) (now : ℕ) (t : String)
    (ht : page.area = some t) (hm : searchM2 t.data = some none) :
    scrape_property_detail page url now = none := by
  have harea : areaStep page.area = .error () := by
    rw [ht]
    exact areaStep_bareM2 t hm
  rw [scrape_property_detail, scrapeInner]
  cases hpr : priceStep page.price with
  | error e => rfl
  | ok pr => rw [harea]; rfl

/-- C6 (amended): extraction never throws, and a regex that merely fails to
match leaves just its field absent while the rest of the record is still
produced; but a field parse that raises — such as the area text matching the
bare `㎡` alternative of the area pattern — is caught at record level and no
record at all is returned. -/
theorem C6_field_failure_isolation_amended :
    ∀ (page : Page) (url : String) (now : ℕ),
      (∀ t, page.area = some t → searchM2 t.data = some none →
        scrape_property_detail page url now = none)
      ∧ (noFieldRaise page = true → ∃ r, scrape_property_detail page url now = some r)
      ∧ (∀ r, scrape_property_detail page url now = some r →
          r.price_numeric.isSome = (page.price.bind fun t => searchPriceManYen t.data).isSome
          ∧ r.walk_minutes.isSome = (page.station.bind fun t => searchWalk t.data).isSome
          ∧ r.building_coverage.isSome
              = (page.coverage.bind fun t => searchPercent t.data).isSome
          ∧ r.floor_area_ratio.isSome
              = (page.ratio.bind fun t => searchPercent t.data).isSome
          ∧ r.title = page.title.getD "タイトルなし"
          ∧ r.address = page.address.getD ""
          ∧ r.usage_area = page.usage.getD ""
          ∧ r.image_urls = page.images.take 5) := by
  intro page url now
  refine ⟨fun t ht hm => scrape_bareM2_none page url now t ht hm, ?_, ?_⟩
  · intro h
    simp only [noFieldRaise, Bool.and_eq_true, stepOk_iff] at h
    obtain ⟨⟨⟨⟨⟨pr, hpr⟩, ⟨ar, har⟩⟩, ⟨st, hst⟩⟩, ⟨bc, hbc⟩⟩, ⟨fr, hfr⟩⟩ := h
    have hres : scrape_property_detail page url now
        = some ⟨extract_property_id url, url, now, page.title.getD "タイトルなし",
            pr.1, pr.2, page.address.getD "", ar.1, ar.2.1, ar.2.2, st.1, st.2.1,
            st.2.2, bc, fr, page.usage.getD "", page.images.take 5⟩ := by
      rw [scrape_property_detail, scrapeInner, hpr, har, hst, hbc, hfr]
      rfl
    exact ⟨_, hres⟩
  · intro r hr
    obtain ⟨hpr, har, hst, hbc, hfr, hti, had, hus, -, -, -, him⟩ :=
      scrape_some_steps page url now r hr
    exact ⟨priceStep_numeric_isSome page.price _ hpr,
      stationStep_minutes_isSome page.station _ hst,
      percentStep_isSome page.coverage _ hbc,
      percentStep_isSome page.ratio _ hfr, hti, had, hus, him⟩

/-- Concrete uses of the amended C6: a bare-`㎡` area text drops the record;
a page whose station text has no walk pattern still yields a record with just
`walk_minutes` absent while the price still parses. -/
theorem C6_field_failure_isolation_amended_witness :
    scrape_property_detail ⟨none, none, none, some "100㎡", none, none, none, none, []⟩
      "https://www.athome.co.jp/detail/123/" 0 = none
    ∧ ∃ r, scrape_property_detail
        ⟨none, some "1,000万円", none, none, some "大分駅 バス20分", none, none, none, []⟩
        "https://www.athome.co.jp/detail/123/" 0 = some r :=
  ⟨(C6_field_failure_isolation_amended
      ⟨none, none, none, some "100㎡", none, none, none, none, []⟩
      "https://www.athome.co.jp/detail/123/" 0).1 "100㎡" rfl rfl,
   (C6_field_failure_isolation_amended
      ⟨none, some "1,000万円", none, none, some "大分駅 バス20分", none, none, none, []⟩
      "https://www.athome.co.jp/detail/123/" 0).2.1 rfl⟩

/-- C6 counterexample: with area text `"100㎡"` (the bare-`㎡` alternative of
the area pattern matches, so the claim says only the area field should be
dropped), extraction returns no record at all instead of a record. -/
theorem C6_bareM2_drops_record_counterexample :
    searchM2 "100㎡".data = some none
    ∧ scrape_property_detail ⟨none, some "1,000万円", none, some "100㎡", none, none,
        none, none, []⟩ "https://www.athome.co.jp/detail/123/" 0 = none :=
  ⟨rfl, rfl⟩

/-- C9 (amended): square-meter parsing runs first and, when its ASCII `m2`
alternative matches and parses, tsubo is derived as m2 / 3.305785; a direct
`坪` match overrides the derived value, so the stored tsubo is the direct one
whenever both the `m2` alternative and the `坪` pattern match and parse; a
bare-`㎡` match of the area pattern instead aborts the whole record. -/
theorem C9_area_tsubo_override_amended :
    ∀ (page : Page) (url : String) (now : ℕ) (t : String),
      page.area = some t →
      (∀ (g : String) (v : ℚ), searchM2 t.data = some (some g) →
        pyFloat (stripCommas g) = .ok v → searchTsubo t.data = none →
        ∀ r, scrape_property_detail page url now = some r →
          r.land_area_m2 = some v ∧ r.land_area_tsubo = some (v / CONV))
      ∧ (∀ (gt : String) (vt : ℚ), searchTsubo t.data = some gt →
          pyFloat (stripCommas gt) = .ok vt →
          ∀ r, scrape_property_detail page url now = some r →
            r.land_area_tsubo = some vt)
      ∧ (searchM2 t.data = some none → scrape_property_detail page url now = none) := by
  intro page url now t ht
  refine ⟨?_, ?_, fun hm => scrape_bareM2_none page url now t ht hm⟩
  · intro g v hm hv htn r hr
    have har := (scrape_some_steps page url now r hr).2.1
    rw [ht, areaStep_m2_noTsubo t g v hm hv htn] at har
    have h2 := (Except.ok.injEq _ _).mp har.symm
    exact ⟨congrArg (fun x => x.2.1) h2, congrArg (fun x => x.2.2) h2⟩
  · intro gt vt hts hvt r hr
    have har := (scrape_some_steps page url now r hr).2.1
    rw [ht] at har
    cases hm : searchM2 t.data with
    | none =>
      rw [areaStep_noM2_tsubo t gt vt hm hts hvt] at har
      have h2 := (Except.ok.injEq _ _).mp har.symm
      exact congrArg (fun x => x.2.2) h2
    | some og =>
      cases og with
      | none => rw [areaStep_bareM2 t hm] at har; cases har
      | some g =>
        cases hv : pyFloat (stripCommas g) with
        | error e => rw [areaStep_m2err t g hm hv] at har; cases har
        | ok v =>
          rw [areaStep_m2_tsubo t g gt v vt hm hv hts hvt] at har
          have h2 := (Except.ok.injEq _ _).mp har.symm
          exact congrArg (fun x => x.2.2) h2

/-- Concrete use of the amended C9: with `"330m2 100坪"` both patterns match
and the stored tsubo is the direct 100, not the derived value. -/
theorem C9_area_tsubo_override_amended_witness :
    ∃ r, scrape_property_detail ⟨none, none, none, some "330m2 100坪", none, none,
        none, none, []⟩ "https://www.athome.co.jp/detail/123/" 0 = some r
      ∧ r.land_area_tsubo = some 100 :=
  ⟨_, rfl,
    (C9_area_tsubo_override_amended ⟨none, none, none, some "330m2 100坪", none, none,
      none, none, []⟩ "https://www.athome.co.jp/detail/123/" 0 "330m2 100坪" rfl).2.1
      "100" 100 rfl rfl _ rfl⟩

/-- C9 counterexample: in `"100㎡50坪"` both area patterns match (the m2
pattern via its bare-`㎡` alternative) and the direct tsubo group is `"50"`,
yet no record is stored at all, so no stored tsubo equals the direct value. -/
theorem C9_bareM2_beats_override_counterexample :
    (searchM2 "100㎡50坪".data).isSome = true
    ∧ searchTsubo "100㎡50坪".data = some "50"
    ∧ scrape_property_detail ⟨none, none, none, some "100㎡50坪", none, none, none,
        none, []⟩ "https://www.athome.co.jp/detail/123/" 0 = none :=
  ⟨rfl, rfl, rfl⟩


/-! C7: what `_extract_property_id` actually computes. -/

/-- Spec-side reading of the claim: the first run of digits anywhere in the
path, regardless of what precedes it. -/
def firstDigitRunSpec (s : String) : Option String :=
  match s.data.dropWhile (fun c => !c.isDigit) with
  | [] => none
  | c :: cs => some (String.mk (c :: cs.takeWhile Char.isDigit))

/-- A leftmost `searchWith` hit is a position match with all earlier
positions failing. -/
theorem searchWith_eq_some {α : Type} (m : List Char → Option α) (cs : List Char) (r : α)
    (h : searchWith m cs = some r) :
    ∃ k, m (cs.drop k) = some r ∧ ∀ j < k, m (cs.drop j) = none := by
  induction cs with
  | nil => exact ⟨0, h, by omega⟩
  | cons c cs ih =>
    rw [searchWith] at h
    cases hm : m (c :: cs) with
    | some r2 =>
      rw [hm] at h
      cases h
      exact ⟨0, hm, by omega⟩
    | none =>
      rw [hm] at h
      obtain ⟨k, hk, hlt⟩ := ih h
      refine ⟨k + 1, by simpa using hk, ?_⟩
      intro j hj
      cases j with
      | zero => simpa using hm
      | succ j => simpa using hlt j (by omega)

/-- What a position match of `/(\d+)` is. -/
theorem slashDigitsAt_eq_some (cs : List Char) (d : String) (h : slashDigitsAt cs = some d) :
    ∃ rest, cs = '/' :: rest ∧ d.data = rest.takeWhile Char.isDigit ∧ d ≠ "" := by
  cases cs with
  | nil => cases h
  | cons c rest =>
    simp only [slashDigitsAt] at h
    split at h
    · next heq =>
      cases heq
      split at h
      · cases h
      · next hne =>
        cases h
        refine ⟨rest, rfl, rfl, ?_⟩
        intro hempty
        rw [show ("" : String) = String.mk [] from rfl] at hempty
        have : rest.takeWhile Char.isDigit = [] := congrArg String.data hempty
        simp [List.isEmpty_iff, this] at hne
    · cases h

theorem hexChar_mem (n : ℕ) : hexChar n ∈ hexDigits := by
  rw [hexChar]
  by_cases h : n < hexDigits.length
  · rw [List.getD_eq_getElem _ _ h]
    exact List.getElem_mem h
  · rw [List.getD_eq_default _ _ (by omega)]
    decide

theorem flatten_map_byteHex_length (l : List ℕ) :
    ((l.map byteHex).flatten).length = 2 * l.length := by
  induction l with
  | nil => rfl
  | cons b tl ih =>
    simp only [List.map_cons, List.flatten_cons, List.length_append, ih, byteHex,
      List.length_cons, List.length_nil]
    omega

theorem md5digest_length (msg : List ℕ) : (md5digest msg).length = 16 := by
  simp [md5digest, wordLEBytes]

theorem md5hexChars_length (s : String) : (md5hexChars s).length = 32 := by
  rw [md5hexChars, flatten_map_byteHex_length, md5digest_length]

theorem md5hexChars_mem (s : String) : ∀ c ∈ md5hexChars s, c ∈ hexDigits := by
  intro c hc
  simp only [md5hexChars, List.mem_flatten, List.mem_map] at hc
  obtain ⟨l, ⟨b, -, rfl⟩, hcl⟩ := hc
  simp only [byteHex, List.mem_cons, List.not_mem_nil] at hcl
  rcases hcl with rfl | rfl | h
  · exact hexChar_mem _
  · exact hexChar_mem _
  · cases h

/-- C7 (amended): the id is `"athome_"` plus the digit run that immediately
follows the leftmost `'/'`-then-digit occurrence in the URL path (not the
first digit run of the path outright); with no such occurrence it is
`"athome_"` plus exactly the first 10 characters of the md5 hexdigest of the
URL, which are 10 lowercase hex digits; the derivation is a pure function of
the URL. -/
theorem C7_id_derivation_amended :
    ∀ url : String,
      (∀ d, searchSlashDigits (urlPath url).data = some d →
        extract_property_id url = "athome_" ++ d
        ∧ ∃ k rest, (urlPath url).data.drop k = '/' :: rest
            ∧ d.data = rest.takeWhile Char.isDigit ∧ d ≠ ""
            ∧ ∀ j < k, slashDigitsAt ((urlPath url).data.drop j) = none)
      ∧ (searchSlashDigits (urlPath url).data = none →
        extract_property_id url = "athome_" ++ String.mk ((md5hexChars url).take 10)
        ∧ ((md5hexChars url).take 10).length = 10
        ∧ ∀ c ∈ (md5hexChars url).take 10, c ∈ hexDigits) := by
  intro url
  constructor
  · intro d hd
    constructor
    · rw [extract_property_id, hd]
    · obtain ⟨k, hk, hlt⟩ := searchWith_eq_some slashDigitsAt (urlPath url).data d hd
      obtain ⟨rest, hrest, hdd, hne⟩ := slashDigitsAt_eq_some _ d hk
      exact ⟨k, rest, hrest, hdd, hne, hlt⟩
  · intro hd
    refine ⟨by rw [extract_property_id, hd], ?_, ?_⟩
    · rw [List.length_take, md5hexChars_length]
      decide
    · intro c hc
      exact md5hexChars_mem url c (List.take_subset 10 _ hc)

/-- Concrete use of the amended C7 on a URL whose path has a digit run
after a slash. -/
theorem C7_id_derivation_amended_witness :
    extract_property_id "https://www.athome.co.jp/tochi/6971234567/detail/"
      = "athome_" ++ "6971234567" :=
  ((C7_id_derivation_amended "https://www.athome.co.jp/tochi/6971234567/detail/").1
    "6971234567" rfl).1

/-- C7 counterexample: in the path `/a1/2` the first run of digits is `1`,
but the code's `/(\d+)` search requires a slash immediately before the
digits, so the derived id is `athome_2`, not `athome_1`. -/
theorem C7_first_digits_counterexample :
    firstDigitRunSpec (urlPath "https://example.com/a1/2") = some "1"
    ∧ extract_property_id "https://example.com/a1/2" = "athome_2"
    ∧ "athome_2" ≠ "athome_1" := by
  refine ⟨rfl, rfl, ?_⟩
  decide


/-! C5: the zoning keyword chain of `_evaluate_investment`. -/

theorem infixScan_iff (needle hay : List Char) :
    infixScan needle hay = true ↔ needle <:+: hay := by
  induction hay with
  | nil =>
    rw [infixScan, List.isPrefixOf_iff_prefix, List.infix_nil, List.prefix_nil]
  | cons c cs ih =>
    rw [infixScan, Bool.or_eq_true, List.isPrefixOf_iff_prefix, ih, List.infix_cons_iff]

/-- Any text containing `近隣商業` also contains `商業`. -/
theorem strContains_kinrin_shogyo (u : String)
    (h : strContains u "近隣商業" = true) : strContains u "商業" = true := by
  rw [strContains, infixScan_iff] at h ⊢
  exact List.IsInfix.trans (by decide) h

/-- Spec-side reading of the zoning rule: an ordered keyword list scanned
front to back, first containment hit wins, default 50. -/
def zoningKeywordsSpec : List (String × ℚ) :=
  [("商業", 90), ("近隣商業", 80), ("準工業", 70), ("第一種住居", 60), ("第二種住居", 60),
   ("第一種低層", 40), ("第二種低層", 40)]

def zoningScanSpec (u : String) : ℚ :=
  match zoningKeywordsSpec.find? (fun p => strContains u p.1) with
  | some p => p.2
  | none => 50

theorem usage_score_eq_scan (u : String) : usage_score u = zoningScanSpec u := by
  rw [usage_score, zoningScanSpec, zoningKeywordsSpec]
  cases h1 : strContains u "商業" <;> cases h2 : strContains u "近隣商業" <;>
    cases h3 : strContains u "準工業" <;> cases h4 : strContains u "第一種住居" <;>
    cases h5 : strContains u "第二種住居" <;> cases h6 : strContains u "第一種低層" <;>
    cases h7 : strContains u "第二種低層" <;>
    simp [List.find?, h1, h2, h3, h4, h5, h6, h7]

/-- C5 (amended): the zoning component is assigned by ordered substring
checks with the broad commercial label `商業` first, so every text containing
`近隣商業` contains `商業` and scores 90 — the 80 branch is unreachable;
then quasi-industrial 70, first/second-tier residential 60, low-rise 40,
default 50; the zoning component is always collected, so the investment
score is the arithmetic mean of 1 to 3 components of which zoning is last. -/
theorem C5_zoning_ordered_scan_amended :
    ∀ pd : PropertyData,
      (strContains pd.usage_area "近隣商業" = true → usage_score pd.usage_area = 90)
      ∧ usage_score pd.usage_area = zoningScanSpec pd.usage_area
      ∧ ∃ comps : List ℚ,
          evaluate_investment pd = comps.sum / (comps.length : ℚ)
          ∧ comps ≠ [] ∧ comps.length ≤ 3
          ∧ comps.getLast? = some (usage_score pd.usage_area) := by
  intro pd
  refine ⟨?_, usage_score_eq_scan pd.usage_area, ?_⟩
  · intro h
    rw [usage_score, if_pos (strContains_kinrin_shogyo pd.usage_area h)]
  · refine ⟨investmentComponents pd, rfl, ?_, ?_, ?_⟩
    · rw [investmentComponents]
      split_ifs <;> simp
    · rw [investmentComponents]
      split_ifs <;> simp
    · rw [investmentComponents, List.getLast?_concat]

/-- Concrete use of the amended C5: a neighborhood-commercial zoning text
scores 90 through the dead-branch shadowing. -/
theorem C5_zoning_ordered_scan_amended_witness :
    usage_score "近隣商業地域" = 90 :=
  (C5_zoning_ordered_scan_amended ⟨none, none, "", none, none, none, "近隣商業地域"⟩).1 rfl

/-- C5 counterexample: `"近隣商業地域"` contains the neighborhood-commercial
label, yet its zoning component — and hence the whole investment score, no
other component being collected — is 90, not the claimed 80. -/
theorem C5_neighborhood_commercial_counterexample :
    strContains "近隣商業地域" "近隣商業" = true
    ∧ evaluate_investment ⟨none, none, "", none, none, none, "近隣商業地域"⟩ = 90
    ∧ (90 : ℚ) ≠ 80 := by
  refine ⟨rfl, ?_, by norm_num⟩
  have h : usage_score "近隣商業地域" = 90 := by
    rw [usage_score, if_pos (by rfl : strContains "近隣商業地域" "商業" = true)]
  rw [evaluate_investment, investmentComponents, h]
  norm_num [Option.getD_none]

/-! Crawl orchestration (`AthomeScraper.scrape_all`): the listing stage is
the fetcher collaborator and may fail; each listed item either yields a
scraped-and-ranked record, yields nothing (`_scrape_property_detail`
returned `None`), or raises and is absorbed by the per-item handler. -/

/-- One per-item outcome inside the crawl loop. -/
inductive ItemOutcome where
  | ok (rec : InRecord)
  | skip
  | err
deriving DecidableEq

/-- One row of `scraping_logs` as written by `log_scraping`. -/
structure RunLogEntry where
  total_properties : ℕ
  new_properties : ℕ
  updated_properties : ℕ
  deactivated_properties : ℕ
  errors : ℕ
  status : String
  message : String
deriving DecidableEq

/-- The persistent store: the `properties` table plus the append-only
`scraping_logs` table. -/
structure Store where
  rows : List DBRow
  logs : List RunLogEntry
deriving DecidableEq

/-- Embeds `PropertyDatabase.log_scraping`: append-only insert. -/
def log_scraping (st : Store) (e : RunLogEntry) : Store :=
  { st with logs := st.logs ++ [e] }

/-- The mutable counters of `AthomeScraper.stats` used by `scrape_all`. -/
structure RunStats where
  total_properties : ℕ
  new_properties : ℕ
  updated_properties : ℕ
  errors : ℕ
deriving DecidableEq

/-- One iteration of the per-listing loop of `scrape_all`. -/
def processItem (now : ℕ) (acc : RunStats × List DBRow × List String)
    (it : ItemOutcome) : RunStats × List DBRow × List String :=
  match it with
  | .ok rec =>
    let res := upsert_property acc.2.1 rec now
    ({ acc.1 with
        total_properties := acc.1.total_properties + 1
        new_properties := acc.1.new_properties + (if res.1.1 then 1 else 0)
        updated_properties := acc.1.updated_properties + (if res.1.1 then 0 else 1) },
      res.2, acc.2.2 ++ [res.1.2])
  | .skip => acc
  | .err => ({ acc.1 with errors := acc.1.errors + 1 }, acc.2.1, acc.2.2)

/-- Embeds `AthomeScraper.scrape_all`: on a listing failure the run is logged with
status `"error"`, the counters accumulated so far (all zero, the loop not
having run) with `errors + 1`, and the exception is re-raised; on success the
loop runs, old rows are deactivated against the collected ids, and a
`"completed"` entry is logged. -/
def scrape_all (st : Store) (listing : Except String (List ItemOutcome))
    (now : ℕ) : Except String RunStats × Store :=
  match listing with
  | .error e =>
    (.error e,
      log_scraping st
        { total_properties := 0, new_properties := 0, updated_properties := 0,
          deactivated_properties := 0, errors := 0 + 1, status := "error", message := e })
  | .ok items =>
    let res := items.foldl (processItem now) (⟨0, 0, 0, 0⟩, st.rows, [])
    let deact := deactivate_old_properties res.2.1 res.2.2 now
    (.ok res.1,
      log_scraping { st with rows := deact.2 }
        { total_properties := res.1.total_properties
          new_properties := res.1.new_properties
          updated_properties := res.1.updated_properties
          deactivated_properties := deact.1
          errors := res.1.errors
          status := "completed"
          message := "正常終了: " ++ toString res.1.total_properties ++ "件処理" })

/-- C8 (amended): when listing enumeration fails, `scrape_all` still records
a run-log entry — holding the accumulated counts, the failure status string
`"error"` (not the literal `"failed"`), and the exception text as its
message — and then re-raises the exception; every run, failed or not,
appends exactly one log entry, so a run summary always exists. -/
theorem C8_failed_run_logged_amended :
    ∀ (st : Store) (e : String) (now : ℕ),
      (scrape_all st (.error e) now).1 = .error e
      ∧ (∃ entry, (scrape_all st (.error e) now).2.logs = st.logs ++ [entry]
          ∧ entry.status = "error" ∧ entry.message = e ∧ entry.errors = 0 + 1
          ∧ entry.total_properties = 0 ∧ entry.new_properties = 0
          ∧ entry.updated_properties = 0)
      ∧ (∀ listing, (scrape_all st listing now).2.logs.length = st.logs.length + 1) := by
  intro st e now
  refine ⟨rfl, ⟨_, rfl, rfl, rfl, rfl, rfl, rfl, rfl⟩, ?_⟩
  intro listing
  cases listing with
  | error e2 => simp [scrape_all, log_scraping]
  | ok items => simp [scrape_all, log_scraping]

/-- C8 counterexample: the failure-path log entry carries the literal status
`"error"`, not `"failed"`. -/
theorem C8_status_error_counterexample :
    ((scrape_all ⟨[], []⟩ (.error "boom") 0).2.logs.map RunLogEntry.status = ["error"])
    ∧ ("error" : String) ≠ "failed" := by
  refine ⟨rfl, ?_⟩
  decide

end AthomeScraper
